import Mathlib

/-!
Verification of the batch tracking store (splinter_grid SDK,
`src/sdk/src/batch_tracking/store/diesel/mod.rs`).

The repository source contains the two store facades
(`DieselBatchTrackingStore`, pool-owning, and
`DieselConnectionBatchTrackingStore`, connection-borrowing) and the
declaration of the operation modules; the bodies of the individual diesel
operation modules (`operations/add_batches.rs`, `operations/get_batch.rs`,
etc.) are not present in the source tree.  The facade layer below is
translated directly from `mod.rs`; the operation layer is modelled from the
specification (each such definition carries a doc comment starting
`Modelled from the spec:`).

Machine integers (`i64` timestamps) are modelled as `Int`; database rows are
modelled as lists of records, and each store call is a function from store
state to `Except` of a new store state, with the per-call transaction
semantics (`runOp`) rolling back to the original state on error.
-/

deriving instance DecidableEq for Except

/-- One signed operation within a batch (spec §3 `TrackingTransaction`):
family name/version, payload hash method and payload, declared input/output
address prefixes, dependency list, nonce.  Immutable once the batch is
added.  `transaction_id` is the transaction's header signature. -/
structure TrackingTransaction where
  transaction_id : String
  family_name : String
  family_version : String
  payload : String
  payload_hash_method : String
  input_addresses : List String
  output_addresses : List String
  dependencies : List String
  nonce : String
deriving DecidableEq

/-- Per-transaction outcome reported by the ledger (spec §3
`TransactionReceipt`). -/
structure TransactionReceipt where
  transaction_id : String
  result_valid : Bool
  error_message : Option String
  error_data : Option (List Nat)
  serialized_receipt : String
deriving DecidableEq

/-- A submission error: `error_type` and `error_message` (spec §3). -/
structure SubmissionError where
  error_type : String
  error_message : String
deriving DecidableEq

/-- Per-transaction validation detail for a `Valid` batch status. -/
structure ValidTransaction where
  transaction_id : String
deriving DecidableEq

/-- Per-transaction validation detail for an `Invalid` batch status:
transaction id, error message, error data (spec §3). -/
structure InvalidTransaction where
  transaction_id : String
  error_message : String
  error_data : List Nat
deriving DecidableEq

/-- Batch status: tagged variant, not a bare string (spec §3).  Comparisons
and listing operate on the tag. -/
inductive BatchStatus where
  | Unknown : BatchStatus
  | Pending : BatchStatus
  | Valid : List ValidTransaction → BatchStatus
  | Invalid : List InvalidTransaction → BatchStatus
deriving DecidableEq

/-- Modelled from the spec: the `Display` impl used by the facades'
`status.to_string()` calls (`mod.rs` lines 88 and 182) lives outside the
provided sources.  Spec §3 and §4.3 say comparison and listing operate on
the status tag only, so the rendered string is the tag name. -/
def BatchStatus.statusString : BatchStatus → String
  | .Unknown => "Unknown"
  | .Pending => "Pending"
  | .Valid _ => "Valid"
  | .Invalid _ => "Invalid"

/-- The store's durable record of a batch plus status/submission metadata
(spec §3 `TrackingBatch`). -/
structure TrackingBatch where
  batch_header : String
  data_change_id : Option String
  service_id : String
  signer_public_key : String
  transactions : List TrackingTransaction
  batch_status : BatchStatus
  submitted : Bool
  created_at : Int
  submission_error : Option SubmissionError
  transaction_receipts : List TransactionReceipt
deriving DecidableEq

/-- A list of tracking batches, as returned by the listing operations. -/
structure TrackingBatchList where
  batches : List TrackingBatch
deriving DecidableEq

/-- Error taxonomy of the store (spec §7, `BatchTrackingStoreError` in
`mod.rs`). -/
inductive BatchTrackingStoreError where
  | NotFoundError : String → BatchTrackingStoreError
  | InternalError : String → BatchTrackingStoreError
  | ResourceTemporarilyUnavailableError : BatchTrackingStoreError
deriving DecidableEq

/-- Insertable batch status row built by the facades
(`NewBatchStatusModel` in `mod.rs` lines 120-124). -/
structure NewBatchStatusModel where
  batch_id : String
  service_id : String
  dlt_status : String
deriving DecidableEq

/-- Insertable submission row built by the facades
(`NewSubmissionModel` in `mod.rs` lines 127-141). -/
structure NewSubmissionModel where
  batch_id : String
  service_id : String
  error_type : Option String
  error_message : Option String
deriving DecidableEq

/-- Receipt row scoped by service id (`TransactionReceiptModel`, built by
the facades via `TransactionReceiptModel::from((receipt, service_id))`). -/
structure TransactionReceiptModel where
  transaction_id : String
  result_valid : Bool
  error_message : Option String
  error_data : Option (List Nat)
  serialized_receipt : String
  service_id : String
deriving DecidableEq

/-- `TransactionReceiptModel::from((t, service_id))`: pairs the receipt
fields with the service id (model type in the unprovided `models.rs`;
field content follows spec §3/§6 keying by `(transaction_id, service_id)`). -/
def TransactionReceiptModel.fromReceipt (t : TransactionReceipt)
    (service_id : String) : TransactionReceiptModel :=
  ⟨t.transaction_id, t.result_valid, t.error_message, t.error_data,
   t.serialized_receipt, service_id⟩

/-- Project a stored receipt row back to the public receipt type. -/
def TransactionReceiptModel.toReceipt (m : TransactionReceiptModel) :
    TransactionReceipt :=
  ⟨m.transaction_id, m.result_valid, m.error_message, m.error_data,
   m.serialized_receipt⟩

/-- Row of the batches table (spec §6: keyed by
`(batch identifier, service_id)`, with `data_change_id` a secondary unique
index). -/
structure BatchRow where
  batch_header : String
  data_change_id : Option String
  service_id : String
  signer_public_key : String
  submitted : Bool
  created_at : Int
deriving DecidableEq

/-- Row of the batch transactions table. -/
structure TransactionRow where
  batch_id : String
  service_id : String
  txn : TrackingTransaction
deriving DecidableEq

/-- Row of the batch statuses table (`dlt_status` string, matching
`NewBatchStatusModel`). -/
structure StatusRow where
  batch_id : String
  service_id : String
  dlt_status : String
deriving DecidableEq

/-- Row of the submission errors table (matching `NewSubmissionModel`). -/
structure SubmissionRow where
  batch_id : String
  service_id : String
  error_type : Option String
  error_message : Option String
deriving DecidableEq

/-- The five logical tables of the store (spec §6) plus the store clock
used to assign `created_at` at insert time. -/
structure StoreState where
  batches : List BatchRow
  transactions : List TransactionRow
  statuses : List StatusRow
  receipts : List TransactionReceiptModel
  submissions : List SubmissionRow
  clock : Int
deriving DecidableEq

/-- Replace `x` by `v` when they share a key. -/
def repBy {α κ : Type} [DecidableEq κ] (k : α → κ) (v x : α) : α :=
  if k x = k v then v else x

/-- Keyed upsert: replace every row sharing the new row's key, or append
the row when its key is absent (last-write-wins per key, spec §4.2). -/
def upsertBy {α κ : Type} [DecidableEq κ] (k : α → κ) (rows : List α)
    (v : α) : List α :=
  if rows.any (fun x => decide (k x = k v)) then rows.map (repBy k v)
  else rows ++ [v]

/-- Key of a status row. -/
def statusKey (s : StatusRow) : String × String := (s.batch_id, s.service_id)

/-- Key of a submission row. -/
def submissionKey (s : SubmissionRow) : String × String :=
  (s.batch_id, s.service_id)

/-- Key of a receipt row (spec §3: receipts keyed by
`(transaction_id, service_id)`). -/
def receiptKey (r : TransactionReceiptModel) : String × String :=
  (r.transaction_id, r.service_id)

/-- A lookup key is a data change id when it carries the `dcid:` prefix
(spec §4.1, glossary). -/
def isDcid (s : String) : Bool := "dcid:".data.isPrefixOf s.data

/-- Modelled from the spec: the identity resolver (spec §4.1), whose diesel
implementation lives in the unprovided operation modules.  Determines
whether the lookup string is a data change id (prefix `dcid:`) or a raw
batch header and resolves to the matching batches row scoped by
`service_id`, or `none` if absent. -/
def resolveBatch (st : StoreState) (id service_id : String) :
    Option BatchRow :=
  if isDcid id then
    st.batches.find? (fun b =>
      decide (b.data_change_id = some id ∧ b.service_id = service_id))
  else
    st.batches.find? (fun b =>
      decide (b.batch_header = id ∧ b.service_id = service_id))

/-- The transactions belonging to a batches row. -/
def batchTransactions (st : StoreState) (row : BatchRow) :
    List TrackingTransaction :=
  (st.transactions.filter (fun t =>
    decide (t.batch_id = row.batch_header ∧
      t.service_id = row.service_id))).map (fun t => t.txn)

/-- The receipts belonging to a batches row: receipt rows in the batch's
service scope whose transaction id is one of the batch's transactions
(spec §3 invariant: every receipt references a transaction of the owning
batch). -/
def batchReceipts (st : StoreState) (row : BatchRow) :
    List TransactionReceipt :=
  (st.receipts.filter (fun r =>
    decide (r.service_id = row.service_id) &&
      (batchTransactions st row).any (fun t =>
        decide (t.transaction_id = r.transaction_id)))).map
    TransactionReceiptModel.toReceipt

/-- The stored status string of a batches row (`Unknown` when no status row
exists). -/
def batchStatusString (st : StoreState) (row : BatchRow) : String :=
  ((st.statuses.find? (fun s =>
    decide (s.batch_id = row.batch_header ∧
      s.service_id = row.service_id))).map (fun s => s.dlt_status)).getD
    "Unknown"

/-- Modelled from the spec: reconstruction of the tagged status variant
from the stored status string plus the batch's receipts; the `Valid` /
`Invalid` payloads are rebuilt from the per-transaction receipt outcomes
(spec §3: `InvalidTransaction` carries transaction id, error message and
error data, which are the fields of a `result_valid = false` receipt). -/
def parseBatchStatus (s : String) (rcpts : List TransactionReceipt) :
    BatchStatus :=
  if s = "Pending" then .Pending
  else if s = "Valid" then
    .Valid ((rcpts.filter (fun r => r.result_valid)).map
      (fun r => ⟨r.transaction_id⟩))
  else if s = "Invalid" then
    .Invalid ((rcpts.filter (fun r => !r.result_valid)).map
      (fun r => ⟨r.transaction_id, r.error_message.getD "",
        r.error_data.getD []⟩))
  else .Unknown

/-- The submission error of a batches row: a submissions row with both
fields populated yields `some`, anything else `none`. -/
def batchSubmissionError (st : StoreState) (row : BatchRow) :
    Option SubmissionError :=
  match st.submissions.find? (fun s =>
    decide (s.batch_id = row.batch_header ∧
      s.service_id = row.service_id)) with
  | some s =>
    match s.error_type, s.error_message with
    | some t, some m => some ⟨t, m⟩
    | some _, none => none
    | none, _ => none
  | none => none

/-- Modelled from the spec: full reconstruction of a logical batch from the
normalized rows (spec §4.3 read path). -/
def reconstructBatch (st : StoreState) (row : BatchRow) : TrackingBatch :=
  ⟨row.batch_header, row.data_change_id, row.service_id,
   row.signer_public_key, batchTransactions st row,
   parseBatchStatus (batchStatusString st row) (batchReceipts st row),
   row.submitted, row.created_at, batchSubmissionError st row,
   batchReceipts st row⟩

namespace Ops

/-- Modelled from the spec: the `get_batch` operation module (spec §4.3):
resolve the identifier and reconstruct the full logical batch. -/
def get_batch (st : StoreState) (id service_id : String) :
    Except BatchTrackingStoreError (Option TrackingBatch) :=
  .ok ((resolveBatch st id service_id).map (reconstructBatch st))

/-- Modelled from the spec: the `get_batch_status` operation module (spec
§4.3): status only, via the identity resolver. -/
def get_batch_status (st : StoreState) (id service_id : String) :
    Except BatchTrackingStoreError (Option BatchStatus) :=
  .ok ((resolveBatch st id service_id).map (fun row =>
    parseBatchStatus (batchStatusString st row) (batchReceipts st row)))

/-- Replace or insert the status row of a batch. -/
def setStatusRow (st : StoreState) (batch_id service_id dlt_status : String) :
    StoreState :=
  { st with statuses :=
      upsertBy statusKey st.statuses ⟨batch_id, service_id, dlt_status⟩ }

/-- Replace or insert the submission row of a batch. -/
def setSubmissionRow (st : StoreState) (batch_id service_id : String)
    (error_type error_message : Option String) : StoreState :=
  let row : SubmissionRow := ⟨batch_id, service_id, error_type, error_message⟩
  { st with submissions := upsertBy submissionKey st.submissions row }

/-- Upsert a list of receipt rows, keyed by
`(transaction_id, service_id)`, last-write-wins per key (spec §4.2). -/
def applyReceipts (st : StoreState) (rcpts : List TransactionReceiptModel) :
    StoreState :=
  { st with receipts := rcpts.foldl (upsertBy receiptKey) st.receipts }

/-- Modelled from the spec: the `update_batch_status` operation module
(spec §4.2): resolve the batch; replace/set its status when provided,
upsert the given receipts, record the submission error when provided;
no-ops on fields left `none`/empty; `NotFoundError` when the identifier
does not resolve.  Per §4.1 all rows are keyed by the canonical
`batch_header` of the resolved batch. -/
def update_batch_status (st : StoreState) (id service_id : String)
    (batch_status : Option String) (rcpts : List TransactionReceiptModel)
    (submission_error : Option SubmissionError) :
    Except BatchTrackingStoreError StoreState :=
  match resolveBatch st id service_id with
  | none => .error (.NotFoundError ("Could not find batch with ID " ++ id))
  | some b =>
    let st1 := match batch_status with
      | some s => setStatusRow st b.batch_header service_id s
      | none => st
    let st2 := applyReceipts st1 rcpts
    let st3 := match submission_error with
      | some e => setSubmissionRow st2 b.batch_header service_id
          (some e.error_type) (some e.error_message)
      | none => st2
    .ok st3

/-- Modelled from the spec: insertion of one batch with its transactions
and its initial status row (spec §4.2): `created_at` is assigned by the
store, the initial status is `Unknown`, `submitted` is taken from the
batch as built (the in-repo test `get_unsubmitted_batches` adds a batch
with `submitted = true` and observes it excluded from the unsubmitted
set); a uniqueness violation on `batch_header` or `data_change_id`
(spec §3 invariants) is a constraint violation surfaced as an internal
error (spec §7). -/
def addSingleBatch (st : StoreState) (b : TrackingBatch) :
    Except BatchTrackingStoreError StoreState :=
  if st.batches.any (fun r =>
      decide (r.batch_header = b.batch_header ∧
        r.service_id = b.service_id)) then
    .error (.InternalError ("duplicate batch header " ++ b.batch_header))
  else if st.batches.any (fun r =>
      decide (b.data_change_id ≠ none ∧
        r.data_change_id = b.data_change_id ∧
        r.service_id = b.service_id)) then
    .error (.InternalError "duplicate data change id")
  else
    .ok { st with
      batches := st.batches ++
        [⟨b.batch_header, b.data_change_id, b.service_id,
          b.signer_public_key, b.submitted, st.clock⟩],
      transactions := st.transactions ++
        b.transactions.map (fun t => ⟨b.batch_header, b.service_id, t⟩),
      statuses := st.statuses ++ [⟨b.batch_header, b.service_id, "Unknown"⟩] }

/-- Modelled from the spec: the `add_batches` operation module (spec §4.2):
insert every batch of the call, all-or-nothing (the surrounding per-call
transaction rolls the whole call back on error, spec §5). -/
def add_batches : StoreState → List TrackingBatch →
    Except BatchTrackingStoreError StoreState
  | st, [] => .ok st
  | st, b :: rest =>
    match addSingleBatch st b with
    | .error e => .error e
    | .ok st1 => add_batches st1 rest

/-- Modelled from the spec: the `change_batch_to_submitted` operation
module (spec §4.2): resolve the batch, set `submitted = true`, optionally
record the status carried by the status model, upsert the receipts, record
the submission row; `NotFoundError` (with the message asserted by the
in-repo test `change_batch_to_submitted_no_batch`) when the identifier
does not resolve.  Per §4.1 the operation routes through the resolver so
rows are keyed by the canonical `batch_header`, making callers indifferent
to which key they used. -/
def change_batch_to_submitted (st : StoreState) (batch_id service_id : String)
    (rcpts : List TransactionReceiptModel)
    (batch_status : Option NewBatchStatusModel)
    (submission : NewSubmissionModel) :
    Except BatchTrackingStoreError StoreState :=
  match resolveBatch st batch_id service_id with
  | none =>
    .error (.NotFoundError ("Could not find batch with ID " ++ batch_id))
  | some b =>
    let st1 := { st with batches := st.batches.map (fun r =>
      if r.batch_header = b.batch_header ∧ r.service_id = b.service_id then
        ⟨r.batch_header, r.data_change_id, r.service_id,
         r.signer_public_key, true, r.created_at⟩
      else r) }
    let st2 := match batch_status with
      | some m => setStatusRow st1 b.batch_header service_id m.dlt_status
      | none => st1
    let st3 := applyReceipts st2 rcpts
    let st4 := setSubmissionRow st3 b.batch_header service_id
      submission.error_type submission.error_message
    .ok st4

/-- Modelled from the spec: the `list_batches_by_status` operation module
(spec §4.3): all batches, across all service ids, whose stored status
string equals the given one. -/
def list_batches_by_status (st : StoreState) (status : String) :
    Except BatchTrackingStoreError TrackingBatchList :=
  .ok ⟨(st.batches.filter (fun r =>
    decide (batchStatusString st r = status))).map (reconstructBatch st)⟩

/-- Modelled from the spec: the `get_unsubmitted_batches` operation module
(spec §4.3): all batches with `submitted = false`. -/
def get_unsubmitted_batches (st : StoreState) :
    Except BatchTrackingStoreError TrackingBatchList :=
  .ok ⟨(st.batches.filter (fun r => !r.submitted)).map
    (reconstructBatch st)⟩

/-- Modelled from the spec: the `get_failed_batches` operation module
(spec §4.3): all batches with status tag `Invalid`. -/
def get_failed_batches (st : StoreState) :
    Except BatchTrackingStoreError TrackingBatchList :=
  .ok ⟨(st.batches.filter (fun r =>
    decide (batchStatusString st r = "Invalid"))).map
    (reconstructBatch st)⟩

end Ops

/-- Whether `(batch_id, service_id)` keys a batch that is stale at the
cutoff, i.e. some batches row with that key has `created_at < cutoff`. -/
def deadBatchKey (st : StoreState) (cutoff : Int)
    (batch_id service_id : String) : Bool :=
  st.batches.any (fun b =>
    decide (b.batch_header = batch_id ∧ b.service_id = service_id ∧
      b.created_at < cutoff))

/-- Modelled from the spec: the state produced by `clean_stale_records`
(spec §4.4): delete every batch with `created_at` strictly below the
cutoff together with its transactions, statuses, submission errors, and
the receipts of its transactions. -/
def cleanState (st : StoreState) (cutoff : Int) : StoreState :=
  { batches := st.batches.filter (fun b => !decide (b.created_at < cutoff)),
    transactions := st.transactions.filter (fun t =>
      !deadBatchKey st cutoff t.batch_id t.service_id),
    statuses := st.statuses.filter (fun s =>
      !deadBatchKey st cutoff s.batch_id s.service_id),
    receipts := st.receipts.filter (fun r =>
      !st.transactions.any (fun t =>
        deadBatchKey st cutoff t.batch_id t.service_id &&
          decide (t.txn.transaction_id = r.transaction_id ∧
            t.service_id = r.service_id))),
    submissions := st.submissions.filter (fun s =>
      !deadBatchKey st cutoff s.batch_id s.service_id),
    clock := st.clock }

namespace Ops

/-- Modelled from the spec: the `clean_stale_records` operation module
(spec §4.4). -/
def clean_stale_records (st : StoreState) (cutoff : Int) :
    Except BatchTrackingStoreError StoreState :=
  .ok (cleanState st cutoff)

end Ops

/-- Per-call transaction semantics (spec §5): a store call either yields
the fully applied new state, or fails and the state rolls back to the
pre-call state. -/
def runOp (st : StoreState)
    (op : StoreState → Except BatchTrackingStoreError StoreState) :
    StoreState × Option BatchTrackingStoreError :=
  match op st with
  | .ok st1 => (st1, none)
  | .error e => (st, some e)

/-- Acquiring a connection from the pool (`self.connection_pool.get()` in
`mod.rs`): an exhausted pool surfaces
`ResourceTemporarilyUnavailableError`. -/
def poolGet (pool : Bool) : Except BatchTrackingStoreError Unit :=
  if pool then .ok () else .error .ResourceTemporarilyUnavailableError

namespace DieselBatchTrackingStore

/-- `DieselBatchTrackingStore::get_batch_status` (`mod.rs` 62-73). -/
def get_batch_status (pool : Bool) (st : StoreState)
    (id service_id : String) :
    Except BatchTrackingStoreError (Option BatchStatus) :=
  match poolGet pool with
  | .error e => .error e
  | .ok _ => Ops.get_batch_status st id service_id

/-- `DieselBatchTrackingStore::update_batch_status` (`mod.rs` 75-98):
maps the receipts into service-scoped models, renders the optional status
to its string, then runs the operation on a pooled connection. -/
def update_batch_status (pool : Bool) (st : StoreState)
    (id service_id : String) (status : Option BatchStatus)
    (transaction_receipts : List TransactionReceipt)
    (submission_error : Option SubmissionError) :
    Except BatchTrackingStoreError StoreState :=
  let rcpts := transaction_receipts.map (fun t =>
    TransactionReceiptModel.fromReceipt t service_id)
  let stat := status.map (fun s => s.statusString)
  let batch_status : Option String := stat
  match poolGet pool with
  | .error e => .error e
  | .ok _ => Ops.update_batch_status st id service_id batch_status rcpts
      submission_error

/-- `DieselBatchTrackingStore::add_batches` (`mod.rs` 100-107). -/
def add_batches (pool : Bool) (st : StoreState)
    (batches : List TrackingBatch) :
    Except BatchTrackingStoreError StoreState :=
  match poolGet pool with
  | .error e => .error e
  | .ok _ => Ops.add_batches st batches

/-- `DieselBatchTrackingStore::change_batch_to_submitted` (`mod.rs`
109-158): builds the optional status model from `dlt_status`, always
builds a submission model (empty error fields when no submission error is
given), both keyed by the caller-supplied `batch_id`, then runs the
operation. -/
def change_batch_to_submitted (pool : Bool) (st : StoreState)
    (batch_id service_id : String)
    (transaction_receipts : List TransactionReceipt)
    (dlt_status : Option String)
    (submission_error : Option SubmissionError) :
    Except BatchTrackingStoreError StoreState :=
  let batch_status : Option NewBatchStatusModel :=
    match dlt_status with
    | some ds => some ⟨batch_id, service_id, ds⟩
    | none => none
  let submission : NewSubmissionModel :=
    match submission_error with
    | some s => ⟨batch_id, service_id, some s.error_type,
        some s.error_message⟩
    | none => ⟨batch_id, service_id, none, none⟩
  match poolGet pool with
  | .error e => .error e
  | .ok _ => Ops.change_batch_to_submitted st batch_id service_id
      (transaction_receipts.map (fun r =>
        TransactionReceiptModel.fromReceipt r service_id))
      batch_status submission

/-- `DieselBatchTrackingStore::get_batch` (`mod.rs` 160-171). -/
def get_batch (pool : Bool) (st : StoreState) (id service_id : String) :
    Except BatchTrackingStoreError (Option TrackingBatch) :=
  match poolGet pool with
  | .error e => .error e
  | .ok _ => Ops.get_batch st id service_id

/-- `DieselBatchTrackingStore::list_batches_by_status` (`mod.rs` 173-183):
renders the status to its string and runs the operation. -/
def list_batches_by_status (pool : Bool) (st : StoreState)
    (status : BatchStatus) :
    Except BatchTrackingStoreError TrackingBatchList :=
  match poolGet pool with
  | .error e => .error e
  | .ok _ => Ops.list_batches_by_status st status.statusString

/-- `DieselBatchTrackingStore::clean_stale_records` (`mod.rs` 185-192). -/
def clean_stale_records (pool : Bool) (st : StoreState)
    (submitted_by : Int) : Except BatchTrackingStoreError StoreState :=
  match poolGet pool with
  | .error e => .error e
  | .ok _ => Ops.clean_stale_records st submitted_by

/-- `DieselBatchTrackingStore::get_unsubmitted_batches` (`mod.rs`
194-201). -/
def get_unsubmitted_batches (pool : Bool) (st : StoreState) :
    Except BatchTrackingStoreError TrackingBatchList :=
  match poolGet pool with
  | .error e => .error e
  | .ok _ => Ops.get_unsubmitted_batches st

/-- `DieselBatchTrackingStore::get_failed_batches` (`mod.rs` 203-210). -/
def get_failed_batches (pool : Bool) (st : StoreState) :
    Except BatchTrackingStoreError TrackingBatchList :=
  match poolGet pool with
  | .error e => .error e
  | .ok _ => Ops.get_failed_batches st

end DieselBatchTrackingStore

namespace DieselConnectionBatchTrackingStore

/-- `DieselConnectionBatchTrackingStore::get_batch_status` (`mod.rs`
387-393): same operation on the caller-supplied connection. -/
def get_batch_status (st : StoreState) (id service_id : String) :
    Except BatchTrackingStoreError (Option BatchStatus) :=
  Ops.get_batch_status st id service_id

/-- `DieselConnectionBatchTrackingStore::update_batch_status` (`mod.rs`
395-419): duplicates the pool store's preprocessing verbatim. -/
def update_batch_status (st : StoreState) (id service_id : String)
    (status : Option BatchStatus)
    (transaction_receipts : List TransactionReceipt)
    (submission_error : Option SubmissionError) :
    Except BatchTrackingStoreError StoreState :=
  let rcpts := transaction_receipts.map (fun t =>
    TransactionReceiptModel.fromReceipt t service_id)
  let stat := status.map (fun s => s.statusString)
  let batch_status : Option String := stat
  Ops.update_batch_status st id service_id batch_status rcpts
    submission_error

/-- `DieselConnectionBatchTrackingStore::add_batches` (`mod.rs` 421-423). -/
def add_batches (st : StoreState) (batches : List TrackingBatch) :
    Except BatchTrackingStoreError StoreState :=
  Ops.add_batches st batches

/-- `DieselConnectionBatchTrackingStore::change_batch_to_submitted`
(`mod.rs` 425-469): duplicates the pool store's model construction
verbatim. -/
def change_batch_to_submitted (st : StoreState)
    (batch_id service_id : String)
    (transaction_receipts : List TransactionReceipt)
    (dlt_status : Option String)
    (submission_error : Option SubmissionError) :
    Except BatchTrackingStoreError StoreState :=
  let batch_status : Option NewBatchStatusModel :=
    match dlt_status with
    | some ds => some ⟨batch_id, service_id, ds⟩
    | none => none
  let submission : NewSubmissionModel :=
    match submission_error with
    | some s => ⟨batch_id, service_id, some s.error_type,
        some s.error_message⟩
    | none => ⟨batch_id, service_id, none, none⟩
  Ops.change_batch_to_submitted st batch_id service_id
    (transaction_receipts.map (fun r =>
      TransactionReceiptModel.fromReceipt r service_id))
    batch_status submission

/-- `DieselConnectionBatchTrackingStore::get_batch` (`mod.rs` 471-477). -/
def get_batch (st : StoreState) (id service_id : String) :
    Except BatchTrackingStoreError (Option TrackingBatch) :=
  Ops.get_batch st id service_id

/-- `DieselConnectionBatchTrackingStore::list_batches_by_status` (`mod.rs`
479-485). -/
def list_batches_by_status (st : StoreState) (status : BatchStatus) :
    Except BatchTrackingStoreError TrackingBatchList :=
  Ops.list_batches_by_status st status.statusString

/-- `DieselConnectionBatchTrackingStore::clean_stale_records` (`mod.rs`
487-489). -/
def clean_stale_records (st : StoreState) (submitted_by : Int) :
    Except BatchTrackingStoreError StoreState :=
  Ops.clean_stale_records st submitted_by

/-- `DieselConnectionBatchTrackingStore::get_unsubmitted_batches`
(`mod.rs` 491-493). -/
def get_unsubmitted_batches (st : StoreState) :
    Except BatchTrackingStoreError TrackingBatchList :=
  Ops.get_unsubmitted_batches st

/-- `DieselConnectionBatchTrackingStore::get_failed_batches` (`mod.rs`
495-497). -/
def get_failed_batches (st : StoreState) :
    Except BatchTrackingStoreError TrackingBatchList :=
  Ops.get_failed_batches st

end DieselConnectionBatchTrackingStore

/-- The optional status model built by both facades'
`change_batch_to_submitted` (`mod.rs` 117-125): present exactly when
`dlt_status` is, keyed by the caller-supplied `batch_id` verbatim. -/
def mkBatchStatusModel (batch_id service_id : String)
    (dlt_status : Option String) : Option NewBatchStatusModel :=
  match dlt_status with
  | some ds => some ⟨batch_id, service_id, ds⟩
  | none => none

/-- The submission model built by both facades'
`change_batch_to_submitted` (`mod.rs` 127-141): always constructed, with
empty error fields when no submission error is given, keyed by the
caller-supplied `batch_id` verbatim. -/
def mkSubmissionModel (batch_id service_id : String)
    (submission_error : Option SubmissionError) : NewSubmissionModel :=
  match submission_error with
  | some s => ⟨batch_id, service_id, some s.error_type,
      some s.error_message⟩
  | none => ⟨batch_id, service_id, none, none⟩

/-! Generic lemmas about keyed upserts, used for the idempotence of
`update_batch_status`. -/

/-- Thread a row through the replacements performed by a list of upserts. -/
def chainRep {α κ : Type} [DecidableEq κ] (k : α → κ) (ms : List α)
    (x : α) : α :=
  ms.foldl (fun y m => repBy k m y) x

/-- The last element of `ms` carrying key `c`, if any. -/
def lastWith {α κ : Type} [DecidableEq κ] (k : α → κ) (ms : List α)
    (c : κ) : Option α :=
  ms.reverse.find? (fun m => decide (k m = c))

/-- A key occurs among the rows. -/
def hasKey {α κ : Type} (k : α → κ) (rows : List α) (c : κ) : Prop :=
  ∃ x ∈ rows, k x = c

theorem key_repBy {α κ : Type} [DecidableEq κ] (k : α → κ) (v x : α) :
    k (repBy k v x) = k x := by
  unfold repBy; split <;> simp_all

theorem upsertBy_of_hasKey {α κ : Type} [DecidableEq κ] (k : α → κ)
    {rows : List α} {v : α} (h : hasKey k rows (k v)) :
    upsertBy k rows v = rows.map (repBy k v) := by
  unfold upsertBy
  rw [if_pos]
  rw [List.any_eq_true]
  obtain ⟨x, hx, hk⟩ := h
  exact ⟨x, hx, by simp [hk]⟩

theorem upsertBy_of_not_hasKey {α κ : Type} [DecidableEq κ] (k : α → κ)
    {rows : List α} {v : α} (h : ¬ hasKey k rows (k v)) :
    upsertBy k rows v = rows ++ [v] := by
  unfold upsertBy
  rw [if_neg]
  simp only [List.any_eq_true, decide_eq_true_eq]
  rintro ⟨x, hx, hk⟩
  exact h ⟨x, hx, hk⟩

theorem hasKey_map_repBy {α κ : Type} [DecidableEq κ] (k : α → κ)
    {rows : List α} {c : κ} (v : α) (h : hasKey k rows c) :
    hasKey k (rows.map (repBy k v)) c := by
  obtain ⟨x, hx, hk⟩ := h
  exact ⟨repBy k v x, List.mem_map_of_mem _ hx, by rw [key_repBy k v x, hk]⟩

theorem hasKey_upsertBy {α κ : Type} [DecidableEq κ] (k : α → κ)
    {rows : List α} {c : κ} (v : α) (h : hasKey k rows c) :
    hasKey k (upsertBy k rows v) c := by
  unfold upsertBy; split
  · exact hasKey_map_repBy k v h
  · obtain ⟨x, hx, hk⟩ := h
    exact ⟨x, List.mem_append_left _ hx, hk⟩

theorem hasKey_upsertBy_self {α κ : Type} [DecidableEq κ] (k : α → κ)
    (rows : List α) (v : α) : hasKey k (upsertBy k rows v) (k v) := by
  unfold upsertBy; split
  case isTrue h =>
    rw [List.any_eq_true] at h
    obtain ⟨x, hx, hk⟩ := h
    rw [decide_eq_true_eq] at hk
    exact ⟨repBy k v x, List.mem_map_of_mem _ hx, by rw [key_repBy k v x, hk]⟩
  case isFalse h =>
    exact ⟨v, List.mem_append_right _ (List.mem_singleton_self v), rfl⟩

theorem hasKey_foldl {α κ : Type} [DecidableEq κ] (k : α → κ)
    {rows : List α} {c : κ} (ms : List α) (h : hasKey k rows c) :
    hasKey k (ms.foldl (upsertBy k) rows) c := by
  induction ms generalizing rows with
  | nil => exact h
  | cons m tail ih => exact ih (hasKey_upsertBy k m h)

theorem hasKey_foldl_mem {α κ : Type} [DecidableEq κ] (k : α → κ)
    {ms : List α} (rows : List α) {m : α} (hm : m ∈ ms) :
    hasKey k (ms.foldl (upsertBy k) rows) (k m) := by
  induction ms generalizing rows with
  | nil => cases hm
  | cons a tail ih =>
    rcases List.mem_cons.mp hm with h | h
    · subst h
      exact hasKey_foldl k tail (hasKey_upsertBy_self k rows m)
    · exact ih (upsertBy k rows a) h

theorem foldl_upsertBy_eq_map {α κ : Type} [DecidableEq κ] (k : α → κ) :
    ∀ (ms : List α) (rows : List α), (∀ m ∈ ms, hasKey k rows (k m)) →
      ms.foldl (upsertBy k) rows = rows.map (chainRep k ms)
  | [], rows, _ => by
    have hid : rows.map (chainRep k []) = rows.map id :=
      List.map_congr_left (fun a _ => rfl)
    rw [List.foldl_nil, hid, List.map_id]
  | m :: tail, rows, h => by
    have h1 : hasKey k rows (k m) := h m (List.mem_cons_self m tail)
    have h2 : ∀ m' ∈ tail, hasKey k (rows.map (repBy k m)) (k m') :=
      fun m' hm' => hasKey_map_repBy k m (h m' (List.mem_cons_of_mem m hm'))
    calc (m :: tail).foldl (upsertBy k) rows
        = tail.foldl (upsertBy k) (upsertBy k rows m) := rfl
      _ = tail.foldl (upsertBy k) (rows.map (repBy k m)) := by
          rw [upsertBy_of_hasKey k h1]
      _ = (rows.map (repBy k m)).map (chainRep k tail) :=
          foldl_upsertBy_eq_map k tail _ h2
      _ = rows.map (chainRep k (m :: tail)) := by
          rw [List.map_map]; rfl

theorem chainRep_of_no_key {α κ : Type} [DecidableEq κ] (k : α → κ) :
    ∀ (ms : List α) (x : α), (∀ m ∈ ms, k x ≠ k m) → chainRep k ms x = x
  | [], _, _ => rfl
  | m :: tail, x, h => by
    have hx : repBy k m x = x := by
      unfold repBy
      rw [if_neg (h m (List.mem_cons_self m tail))]
    calc chainRep k (m :: tail) x = chainRep k tail (repBy k m x) := rfl
      _ = chainRep k tail x := by rw [hx]
      _ = x := chainRep_of_no_key k tail x
            (fun m' hm' => h m' (List.mem_cons_of_mem m hm'))

theorem key_chainRep {α κ : Type} [DecidableEq κ] (k : α → κ) :
    ∀ (ms : List α) (x : α), k (chainRep k ms x) = k x
  | [], _ => rfl
  | m :: tail, x => by
    calc k (chainRep k (m :: tail) x)
        = k (chainRep k tail (repBy k m x)) := rfl
      _ = k (repBy k m x) := key_chainRep k tail _
      _ = k x := key_repBy k m x

theorem lastWith_eq_chainRep {α κ : Type} [DecidableEq κ] (k : α → κ) :
    ∀ (ms : List α) (x : α), (∃ m ∈ ms, k m = k x) →
      lastWith k ms (k x) = some (chainRep k ms x)
  | [], x, h => by
    obtain ⟨m, hm, _⟩ := h
    cases hm
  | m :: tail, x, h => by
    have hrev : lastWith k (m :: tail) (k x) =
        (tail.reverse.find? (fun m' => decide (k m' = k x))).or
          ([m].find? (fun m' => decide (k m' = k x))) := by
      unfold lastWith
      rw [show (m :: tail).reverse = tail.reverse ++ [m] by simp,
        List.find?_append]
    by_cases htail : ∃ m' ∈ tail, k m' = k x
    · have hx' : ∃ m' ∈ tail, k m' = k (repBy k m x) := by
        rw [key_repBy k m x]; exact htail
      have ih := lastWith_eq_chainRep k tail (repBy k m x) hx'
      rw [key_repBy k m x] at ih
      obtain ⟨m', hm', hk'⟩ := htail
      have hsome : (tail.reverse.find? (fun a => decide (k a = k x))).isSome := by
        rw [List.find?_isSome]
        exact ⟨m', List.mem_reverse.mpr hm', by simp [hk']⟩
      obtain ⟨y, hy⟩ := Option.isSome_iff_exists.mp hsome
      have hl : lastWith k tail (k x) = some y := hy
      rw [hrev, hy]
      calc (some y).or _ = some y := rfl
        _ = some (chainRep k tail (repBy k m x)) := by rw [← hl, ih]
        _ = some (chainRep k (m :: tail) x) := rfl
    · have hkm : k m = k x := by
        obtain ⟨m', hm', hk'⟩ := h
        rcases List.mem_cons.mp hm' with he | he
        · rw [← he]; exact hk'
        · exact absurd ⟨m', he, hk'⟩ htail
      have hrx : repBy k m x = m := by
        unfold repBy
        rw [if_pos hkm.symm]
      have hchain : chainRep k (m :: tail) x = m := by
        calc chainRep k (m :: tail) x = chainRep k tail (repBy k m x) := rfl
          _ = chainRep k tail m := by rw [hrx]
          _ = m := chainRep_of_no_key k tail m (fun m' hm' he =>
              htail ⟨m', hm', by rw [← he, hkm]⟩)
      have hnone : tail.reverse.find? (fun a => decide (k a = k x)) = none := by
        rw [List.find?_eq_none]
        intro a ha
        simp only [decide_eq_true_eq]
        exact fun he => htail ⟨a, List.mem_reverse.mp ha, he⟩
      rw [hrev, hnone, hchain]
      calc Option.or none ([m].find? (fun a => decide (k a = k x)))
          = [m].find? (fun a => decide (k a = k x)) := rfl
        _ = some m := by simp [List.find?, hkm]

theorem foldl_upsertBy_last {α κ : Type} [DecidableEq κ] (k : α → κ)
    (ms : List α) (rows : List α) :
    ∀ x ∈ ms.foldl (upsertBy k) rows, (∃ m ∈ ms, k m = k x) →
      lastWith k ms (k x) = some x := by
  induction ms using List.reverseRecOn generalizing rows with
  | nil =>
    intro x _ h
    obtain ⟨m, hm, _⟩ := h
    cases hm
  | append_singleton ms' m ih =>
    intro x hx h
    rw [List.foldl_append] at hx
    have hx' : x ∈ upsertBy k (ms'.foldl (upsertBy k) rows) m := hx
    have hlast : ∀ c : κ, (ms' ++ [m]).reverse.find?
        (fun a => decide (k a = c)) =
        ((List.find? (fun a => decide (k a = c)) [m]).or
          (ms'.reverse.find? (fun a => decide (k a = c)))) := by
      intro c
      rw [show (ms' ++ [m]).reverse = [m] ++ ms'.reverse by simp,
        List.find?_append]
    have hcase_m : x = m → lastWith k (ms' ++ [m]) (k x) = some x := by
      intro he
      subst he
      unfold lastWith
      rw [hlast]
      simp [List.find?]
    have hcase_old : x ∈ ms'.foldl (upsertBy k) rows → k x ≠ k m →
        lastWith k (ms' ++ [m]) (k x) = some x := by
      intro hmem hne
      have hms' : ∃ m' ∈ ms', k m' = k x := by
        obtain ⟨m', hm', hk'⟩ := h
        rcases List.mem_append.mp hm' with hin | hin
        · exact ⟨m', hin, hk'⟩
        · rw [List.mem_singleton] at hin
          subst hin
          exact absurd hk' (fun he => hne he.symm)
      have := ih rows x hmem hms'
      unfold lastWith at this ⊢
      rw [hlast]
      have hm_no : List.find? (fun a => decide (k a = k x)) [m] = none := by
        rw [List.find?_eq_none]
        intro a ha
        rw [List.mem_singleton] at ha
        subst ha
        simp only [decide_eq_true_eq]
        exact fun he => hne he.symm
      rw [hm_no, this]
      rfl
    unfold upsertBy at hx'
    split at hx'
    case isTrue hany =>
      obtain ⟨y, hy, hrep⟩ := List.mem_map.mp hx'
      by_cases hk : k y = k m
      · have : x = m := by rw [← hrep]; unfold repBy; rw [if_pos hk]
        exact hcase_m this
      · have : x = y := by rw [← hrep]; unfold repBy; rw [if_neg hk]
        subst this
        exact hcase_old hy hk
    case isFalse hany =>
      rcases List.mem_append.mp hx' with hin | hin
      · have hne : k x ≠ k m := by
          intro he
          apply hany
          rw [List.any_eq_true]
          exact ⟨x, hin, by simp [he]⟩
        exact hcase_old hin hne
      · rw [List.mem_singleton] at hin
        exact hcase_m hin

theorem foldl_upsertBy_idem {α κ : Type} [DecidableEq κ] (k : α → κ)
    (ms rows : List α) :
    ms.foldl (upsertBy k) (ms.foldl (upsertBy k) rows) =
      ms.foldl (upsertBy k) rows := by
  have hkeys : ∀ m ∈ ms, hasKey k (ms.foldl (upsertBy k) rows) (k m) :=
    fun m hm => hasKey_foldl_mem k rows hm
  rw [foldl_upsertBy_eq_map k ms _ hkeys]
  have hfix : ∀ x ∈ ms.foldl (upsertBy k) rows, chainRep k ms x = x := by
    intro x hx
    by_cases h : ∃ m ∈ ms, k m = k x
    · have h1 := lastWith_eq_chainRep k ms x h
      have h2 := foldl_upsertBy_last k ms rows x hx h
      rw [h1] at h2
      exact Option.some.inj h2
    · exact chainRep_of_no_key k ms x
        (fun m hm he => h ⟨m, hm, he.symm⟩)
  calc (ms.foldl (upsertBy k) rows).map (chainRep k ms)
      = (ms.foldl (upsertBy k) rows).map id := List.map_congr_left hfix
    _ = ms.foldl (upsertBy k) rows := List.map_id _

theorem upsertBy_idem {α κ : Type} [DecidableEq κ] (k : α → κ)
    (rows : List α) (v : α) :
    upsertBy k (upsertBy k rows v) v = upsertBy k rows v :=
  foldl_upsertBy_idem k [v] rows

/-! Helper lemmas and shared concrete fixtures. -/

theorem resolveBatch_eq_of_batches {st1 st2 : StoreState}
    (h : st1.batches = st2.batches) (id service_id : String) :
    resolveBatch st1 id service_id = resolveBatch st2 id service_id := by
  unfold resolveBatch
  rw [h]

/-- The state produced by a successful `update_batch_status`. -/
def updatedState (st : StoreState) (service_id hdr : String)
    (batch_status : Option String) (rcpts : List TransactionReceiptModel)
    (submission_error : Option SubmissionError) : StoreState :=
  { st with
    statuses := match batch_status with
      | some s => upsertBy statusKey st.statuses ⟨hdr, service_id, s⟩
      | none => st.statuses,
    receipts := rcpts.foldl (upsertBy receiptKey) st.receipts,
    submissions := match submission_error with
      | some e => upsertBy submissionKey st.submissions
          ⟨hdr, service_id, some e.error_type, some e.error_message⟩
      | none => st.submissions }

theorem update_batch_status_ok {st : StoreState} {id service_id : String}
    {b : BatchRow} (batch_status : Option String)
    (rcpts : List TransactionReceiptModel)
    (submission_error : Option SubmissionError)
    (h : resolveBatch st id service_id = some b) :
    Ops.update_batch_status st id service_id batch_status rcpts
      submission_error =
    .ok (updatedState st service_id b.batch_header batch_status rcpts
      submission_error) := by
  unfold Ops.update_batch_status updatedState
  rw [h]
  cases batch_status <;> cases submission_error <;> rfl

theorem update_batch_status_idem_ops {st st1 : StoreState}
    {id service_id : String} {batch_status : Option String}
    {rcpts : List TransactionReceiptModel}
    {submission_error : Option SubmissionError}
    (h : Ops.update_batch_status st id service_id batch_status rcpts
      submission_error = .ok st1) :
    Ops.update_batch_status st1 id service_id batch_status rcpts
      submission_error = .ok st1 := by
  rcases hres : resolveBatch st id service_id with _ | b
  · unfold Ops.update_batch_status at h
    rw [hres] at h
    cases h
  · rw [update_batch_status_ok batch_status rcpts submission_error hres] at h
    have h1 : st1 = updatedState st service_id b.batch_header batch_status
        rcpts submission_error := (Except.ok.inj h).symm
    have hres1 : resolveBatch st1 id service_id = some b := by
      rw [h1, @resolveBatch_eq_of_batches (updatedState st service_id
        b.batch_header batch_status rcpts submission_error) st rfl]
      exact hres
    rw [update_batch_status_ok batch_status rcpts submission_error hres1, h1]
    unfold updatedState
    cases batch_status <;> cases submission_error <;>
      simp [upsertBy_idem, foldl_upsertBy_idem]

/-- Sample transaction used by the concrete witnesses. -/
def sampleTxn : TrackingTransaction :=
  ⟨"tx1", "test_family", "0.1", "payload", "sha512", [], [], [], "f9kdzz"⟩

/-- Sample batch used by the concrete witnesses. -/
def sampleBatch : TrackingBatch :=
  ⟨"hdr1", some "dcid:data_change", "TEST", "key1", [sampleTxn], .Unknown,
   false, 0, none, []⟩

/-- Empty store at clock 42. -/
def emptyStore : StoreState := ⟨[], [], [], [], [], 42⟩

/-- Store holding `sampleBatch` as persisted by `add_batches`. -/
def storeWithBatch : StoreState :=
  ⟨[⟨"hdr1", some "dcid:data_change", "TEST", "key1", false, 42⟩],
   [⟨"hdr1", "TEST", sampleTxn⟩],
   [⟨"hdr1", "TEST", "Unknown"⟩], [], [], 42⟩

/-- Sample receipt used by the concrete witnesses. -/
def sampleReceipt : TransactionReceipt :=
  ⟨"tx1", false, some "test", some [5, 6, 7, 8], "sr"⟩

/-- C5: for every operation of the public operation set and all arguments,
the pool-owning store and the connection-borrowing store over the same
underlying database produce identical results and identical resulting
stored state whenever the pool yields a connection (the `true` argument);
only resource ownership differs. -/
theorem claim_C5_pool_connection_equivalence
    (st : StoreState) (id service_id : String) (status : Option BatchStatus)
    (trs : List TransactionReceipt) (se : Option SubmissionError)
    (bs : List TrackingBatch) (dlt : Option String) (stat : BatchStatus)
    (cutoff : Int) :
    DieselBatchTrackingStore.get_batch_status true st id service_id =
      DieselConnectionBatchTrackingStore.get_batch_status st id service_id ∧
    DieselBatchTrackingStore.update_batch_status true st id service_id
        status trs se =
      DieselConnectionBatchTrackingStore.update_batch_status st id
        service_id status trs se ∧
    DieselBatchTrackingStore.add_batches true st bs =
      DieselConnectionBatchTrackingStore.add_batches st bs ∧
    DieselBatchTrackingStore.change_batch_to_submitted true st id service_id
        trs dlt se =
      DieselConnectionBatchTrackingStore.change_batch_to_submitted st id
        service_id trs dlt se ∧
    DieselBatchTrackingStore.get_batch true st id service_id =
      DieselConnectionBatchTrackingStore.get_batch st id service_id ∧
    DieselBatchTrackingStore.list_batches_by_status true st stat =
      DieselConnectionBatchTrackingStore.list_batches_by_status st stat ∧
    DieselBatchTrackingStore.clean_stale_records true st cutoff =
      DieselConnectionBatchTrackingStore.clean_stale_records st cutoff ∧
    DieselBatchTrackingStore.get_unsubmitted_batches true st =
      DieselConnectionBatchTrackingStore.get_unsubmitted_batches st ∧
    DieselBatchTrackingStore.get_failed_batches true st =
      DieselConnectionBatchTrackingStore.get_failed_batches st :=
  ⟨rfl, rfl, rfl, rfl, rfl, rfl, rfl, rfl, rfl⟩

/-- C10: `change_batch_to_submitted` always constructs a submission model
and passes it to the underlying operation; when `submission_error` is
`none` the model carries `none` error fields; both the submission model
and the optional status model are keyed by the caller-supplied identifier
string verbatim (the identifier is universally quantified, so in
particular it may be a `data_change_id`). -/
theorem claim_C10_submission_model_verbatim
    (batch_id service_id : String) (dlt : Option String)
    (se : Option SubmissionError) (st : StoreState)
    (trs : List TransactionReceipt) :
    mkSubmissionModel batch_id service_id none =
      ⟨batch_id, service_id, none, none⟩ ∧
    (mkSubmissionModel batch_id service_id se).batch_id = batch_id ∧
    (mkSubmissionModel batch_id service_id se).service_id = service_id ∧
    mkBatchStatusModel batch_id service_id none = none ∧
    (∀ ds, mkBatchStatusModel batch_id service_id (some ds) =
      some ⟨batch_id, service_id, ds⟩) ∧
    DieselConnectionBatchTrackingStore.change_batch_to_submitted st batch_id
        service_id trs dlt se =
      Ops.change_batch_to_submitted st batch_id service_id
        (trs.map (fun r => TransactionReceiptModel.fromReceipt r service_id))
        (mkBatchStatusModel batch_id service_id dlt)
        (mkSubmissionModel batch_id service_id se) := by
  refine ⟨rfl, ?_, ?_, rfl, fun ds => rfl, ?_⟩
  · cases se <;> rfl
  · cases se <;> rfl
  · unfold DieselConnectionBatchTrackingStore.change_batch_to_submitted
      mkBatchStatusModel mkSubmissionModel
    cases dlt <;> cases se <;> rfl

theorem update_batch_status_not_found {st : StoreState}
    {id service_id : String} (batch_status : Option String)
    (rcpts : List TransactionReceiptModel)
    (submission_error : Option SubmissionError)
    (h : resolveBatch st id service_id = none) :
    Ops.update_batch_status st id service_id batch_status rcpts
      submission_error =
    .error (.NotFoundError ("Could not find batch with ID " ++ id)) := by
  unfold Ops.update_batch_status
  rw [h]

theorem change_batch_to_submitted_not_found {st : StoreState}
    {batch_id service_id : String} (rcpts : List TransactionReceiptModel)
    (bsm : Option NewBatchStatusModel) (sm : NewSubmissionModel)
    (h : resolveBatch st batch_id service_id = none) :
    Ops.change_batch_to_submitted st batch_id service_id rcpts bsm sm =
      .error (.NotFoundError ("Could not find batch with ID " ++ batch_id)) := by
  unfold Ops.change_batch_to_submitted
  rw [h]

/-- C4: when the identifier does not resolve to a stored batch, both
`update_batch_status` and `change_batch_to_submitted` return
`NotFoundError` and the per-call transaction leaves the entire store state
unchanged. -/
theorem claim_C4_not_found_no_mutation
    (st : StoreState) (id service_id : String)
    (status : Option BatchStatus) (trs : List TransactionReceipt)
    (se : Option SubmissionError) (trs2 : List TransactionReceipt)
    (dlt : Option String) (se2 : Option SubmissionError)
    (h : resolveBatch st id service_id = none) :
    runOp st (fun s => DieselConnectionBatchTrackingStore.update_batch_status
        s id service_id status trs se) =
      (st, some (.NotFoundError ("Could not find batch with ID " ++ id))) ∧
    runOp st (fun s =>
        DieselConnectionBatchTrackingStore.change_batch_to_submitted s id
          service_id trs2 dlt se2) =
      (st, some (.NotFoundError ("Could not find batch with ID " ++ id))) := by
  have h1 : DieselConnectionBatchTrackingStore.update_batch_status st id
      service_id status trs se =
      .error (.NotFoundError ("Could not find batch with ID " ++ id)) := by
    unfold DieselConnectionBatchTrackingStore.update_batch_status
    exact update_batch_status_not_found _ _ _ h
  have h2 : DieselConnectionBatchTrackingStore.change_batch_to_submitted st
      id service_id trs2 dlt se2 =
      .error (.NotFoundError ("Could not find batch with ID " ++ id)) := by
    unfold DieselConnectionBatchTrackingStore.change_batch_to_submitted
    exact change_batch_to_submitted_not_found _ _ _ h
  constructor
  · simp only [runOp]
    rw [h1]
  · simp only [runOp]
    rw [h2]

/-- Witness for C4 at the concrete input of the in-repo test
`change_batch_to_submitted_no_batch`: identifier `"id"`, service `"TEST"`,
empty store. -/
theorem claim_C4_witness :
    runOp emptyStore (fun s =>
        DieselConnectionBatchTrackingStore.update_batch_status s "id" "TEST"
          none [] none) =
      (emptyStore,
        some (.NotFoundError "Could not find batch with ID id")) ∧
    runOp emptyStore (fun s =>
        DieselConnectionBatchTrackingStore.change_batch_to_submitted s "id"
          "TEST" [] (some "Pending") none) =
      (emptyStore,
        some (.NotFoundError "Could not find batch with ID id")) :=
  claim_C4_not_found_no_mutation emptyStore "id" "TEST" none [] none []
    (some "Pending") none (by decide)

/-- Store state after applying the sample status update to
`storeWithBatch` once. -/
def storeAfterUpdate : StoreState :=
  ⟨[⟨"hdr1", some "dcid:data_change", "TEST", "key1", false, 42⟩],
   [⟨"hdr1", "TEST", sampleTxn⟩],
   [⟨"hdr1", "TEST", "Pending"⟩],
   [⟨"tx1", false, some "test", some [5, 6, 7, 8], "sr", "TEST"⟩],
   [⟨"hdr1", "TEST", some "test", some "test message"⟩], 42⟩

/-- C3: for every existing batch and fixed arguments, applying the same
`update_batch_status` call twice leaves the store in the same state as
applying it once; receipts are keyed by transaction id and overwrite
rather than duplicate. -/
theorem claim_C3_update_batch_status_idempotent
    (st st1 : StoreState) (id service_id : String)
    (status : Option BatchStatus) (trs : List TransactionReceipt)
    (se : Option SubmissionError)
    (h : DieselConnectionBatchTrackingStore.update_batch_status st id
      service_id status trs se = .ok st1) :
    DieselConnectionBatchTrackingStore.update_batch_status st1 id service_id
      status trs se = .ok st1 := by
  unfold DieselConnectionBatchTrackingStore.update_batch_status at h ⊢
  exact update_batch_status_idem_ops h

/-- Witness for C3 at the concrete input of the in-repo test
`update_batch_status`: a pending-status update with one receipt and a
submission error. -/
theorem claim_C3_witness :
    DieselConnectionBatchTrackingStore.update_batch_status storeAfterUpdate
      "hdr1" "TEST" (some .Pending) [sampleReceipt]
      (some ⟨"test", "test message"⟩) = .ok storeAfterUpdate :=
  claim_C3_update_batch_status_idempotent storeWithBatch storeAfterUpdate
    "hdr1" "TEST" (some .Pending) [sampleReceipt]
    (some ⟨"test", "test message"⟩) (by decide)

theorem find?_append_of_none {α : Type} {l1 l2 : List α} {p : α → Bool}
    (h : l1.find? p = none) : (l1 ++ l2).find? p = l2.find? p := by
  rw [List.find?_append, h]
  rfl

/-- The batches row inserted for a tracking batch at clock `c`. -/
def insertedRow (B : TrackingBatch) (c : Int) : BatchRow :=
  ⟨B.batch_header, B.data_change_id, B.service_id, B.signer_public_key,
   B.submitted, c⟩

/-- The store state after inserting one fresh tracking batch. -/
def insertedState (st : StoreState) (B : TrackingBatch) : StoreState :=
  { st with
    batches := st.batches ++ [insertedRow B st.clock],
    transactions := st.transactions ++
      B.transactions.map (fun t => ⟨B.batch_header, B.service_id, t⟩),
    statuses := st.statuses ++ [⟨B.batch_header, B.service_id, "Unknown"⟩] }

theorem addSingleBatch_ok {st : StoreState} {B : TrackingBatch}
    (hH : ∀ r ∈ st.batches,
      ¬(r.batch_header = B.batch_header ∧ r.service_id = B.service_id))
    (hD : ∀ r ∈ st.batches,
      ¬(B.data_change_id ≠ none ∧ r.data_change_id = B.data_change_id ∧
        r.service_id = B.service_id)) :
    Ops.addSingleBatch st B = .ok (insertedState st B) := by
  have hA : st.batches.any (fun r =>
      decide (r.batch_header = B.batch_header ∧
        r.service_id = B.service_id)) = false := by
    rw [List.any_eq_false]
    intro r hr
    simpa using hH r hr
  have hB : st.batches.any (fun r =>
      decide (B.data_change_id ≠ none ∧
        r.data_change_id = B.data_change_id ∧
        r.service_id = B.service_id)) = false := by
    rw [List.any_eq_false]
    intro r hr
    simpa using hD r hr
  unfold Ops.addSingleBatch insertedState insertedRow
  rw [hA, hB]
  rfl

/-- C1: a batch persisted via `add_batches` is returned by a subsequent
`get_batch` on its header with every field as given, except that
`created_at` is populated by the store at insert time, the initial status
is `Unknown`, `submitted` is as given, and no receipts or submission error
exist yet.  The hypotheses say the batch is fresh: its keys do not collide
with anything already stored and its header is not `dcid:`-shaped. -/
theorem claim_C1_add_get_roundtrip
    (st : StoreState) (B : TrackingBatch)
    (hH : ∀ r ∈ st.batches,
      ¬(r.batch_header = B.batch_header ∧ r.service_id = B.service_id))
    (hD : ∀ r ∈ st.batches,
      ¬(B.data_change_id ≠ none ∧ r.data_change_id = B.data_change_id ∧
        r.service_id = B.service_id))
    (hT : ∀ t ∈ st.transactions,
      ¬(t.batch_id = B.batch_header ∧ t.service_id = B.service_id))
    (hS : ∀ s ∈ st.statuses,
      ¬(s.batch_id = B.batch_header ∧ s.service_id = B.service_id))
    (hSub : ∀ s ∈ st.submissions,
      ¬(s.batch_id = B.batch_header ∧ s.service_id = B.service_id))
    (hR : ∀ r ∈ st.receipts, r.service_id = B.service_id →
      ∀ t ∈ B.transactions, t.transaction_id ≠ r.transaction_id)
    (hNd : isDcid B.batch_header = false) :
    DieselConnectionBatchTrackingStore.add_batches st [B] =
      .ok (insertedState st B) ∧
    DieselConnectionBatchTrackingStore.get_batch (insertedState st B)
        B.batch_header B.service_id =
      .ok (some ⟨B.batch_header, B.data_change_id, B.service_id,
        B.signer_public_key, B.transactions, .Unknown, B.submitted,
        st.clock, none, []⟩) := by
  have hadd : DieselConnectionBatchTrackingStore.add_batches st [B] =
      .ok (insertedState st B) := by
    show Ops.add_batches st [B] = .ok (insertedState st B)
    unfold Ops.add_batches
    rw [addSingleBatch_ok hH hD]
    rfl
  refine ⟨hadd, ?_⟩
  have hres : resolveBatch (insertedState st B) B.batch_header
      B.service_id = some (insertedRow B st.clock) := by
    unfold resolveBatch
    rw [hNd]
    have hn : st.batches.find? (fun b =>
        decide (b.batch_header = B.batch_header ∧
          b.service_id = B.service_id)) = none := by
      rw [List.find?_eq_none]
      intro r hr
      simpa using hH r hr
    have : (insertedState st B).batches =
        st.batches ++ [insertedRow B st.clock] := rfl
    rw [if_neg (by simp), this, find?_append_of_none hn]
    simp [List.find?, insertedRow]
  have e1 : batchTransactions (insertedState st B)
      (insertedRow B st.clock) = B.transactions := by
    unfold batchTransactions
    have hsplit : (insertedState st B).transactions =
        st.transactions ++
          B.transactions.map (fun t =>
            ⟨B.batch_header, B.service_id, t⟩) := rfl
    rw [hsplit, List.filter_append]
    have hnil : st.transactions.filter (fun t =>
        decide (t.batch_id = (insertedRow B st.clock).batch_header ∧
          t.service_id = (insertedRow B st.clock).service_id)) = [] := by
      rw [List.filter_eq_nil_iff]
      intro t ht
      simpa [insertedRow] using hT t ht
    have hall : (B.transactions.map (fun t =>
        (⟨B.batch_header, B.service_id, t⟩ : TransactionRow))).filter
          (fun t => decide (t.batch_id =
            (insertedRow B st.clock).batch_header ∧
            t.service_id = (insertedRow B st.clock).service_id)) =
        B.transactions.map (fun t =>
          (⟨B.batch_header, B.service_id, t⟩ : TransactionRow)) := by
      rw [List.filter_eq_self]
      intro x hx
      obtain ⟨t, _, rfl⟩ := List.mem_map.mp hx
      simp [insertedRow]
    rw [hnil, hall, List.nil_append, List.map_map]
    have : ∀ t ∈ B.transactions,
        (TransactionRow.txn ∘ (fun t =>
          (⟨B.batch_header, B.service_id, t⟩ : TransactionRow))) t = t :=
      fun t _ => rfl
    rw [List.map_congr_left this]
    simp
  have e2 : batchStatusString (insertedState st B)
      (insertedRow B st.clock) = "Unknown" := by
    unfold batchStatusString
    have hsplit : (insertedState st B).statuses =
        st.statuses ++ [⟨B.batch_header, B.service_id, "Unknown"⟩] := rfl
    have hn : st.statuses.find? (fun s =>
        decide (s.batch_id = (insertedRow B st.clock).batch_header ∧
          s.service_id = (insertedRow B st.clock).service_id)) = none := by
      rw [List.find?_eq_none]
      intro s hs
      simpa [insertedRow] using hS s hs
    rw [hsplit, find?_append_of_none hn]
    simp [List.find?, insertedRow]
  have e3 : batchReceipts (insertedState st B)
      (insertedRow B st.clock) = [] := by
    unfold batchReceipts
    have hsplit : (insertedState st B).receipts = st.receipts := rfl
    rw [hsplit]
    simp only [e1]
    have hnil : st.receipts.filter (fun r =>
        decide (r.service_id = (insertedRow B st.clock).service_id) &&
          B.transactions.any (fun t =>
            decide (t.transaction_id = r.transaction_id))) = [] := by
      rw [List.filter_eq_nil_iff]
      intro r hr
      simp only [Bool.and_eq_true, decide_eq_true_eq, List.any_eq_true,
        not_and, insertedRow]
      intro hsid
      rintro ⟨t, ht, he⟩
      exact hR r hr hsid t ht he
    rw [hnil]
    rfl
  have e4 : batchSubmissionError (insertedState st B)
      (insertedRow B st.clock) = none := by
    unfold batchSubmissionError
    have hsplit : (insertedState st B).submissions = st.submissions := rfl
    rw [hsplit]
    have hn : st.submissions.find? (fun s =>
        decide (s.batch_id = (insertedRow B st.clock).batch_header ∧
          s.service_id = (insertedRow B st.clock).service_id)) = none := by
      rw [List.find?_eq_none]
      intro s hs
      simpa [insertedRow] using hSub s hs
    rw [hn]
  show Ops.get_batch (insertedState st B) B.batch_header B.service_id = _
  unfold Ops.get_batch
  rw [hres]
  simp only [Option.map_some']
  unfold reconstructBatch
  rw [e1, e2, e3, e4]
  rfl

/-- Witness for C1: the sample batch added to the empty store and fetched
back by its header (the in-repo test `add_and_fetch_batch` scenario). -/
theorem claim_C1_witness :
    DieselConnectionBatchTrackingStore.add_batches emptyStore [sampleBatch] =
      .ok (insertedState emptyStore sampleBatch) ∧
    DieselConnectionBatchTrackingStore.get_batch
        (insertedState emptyStore sampleBatch) sampleBatch.batch_header
        sampleBatch.service_id =
      .ok (some ⟨sampleBatch.batch_header, sampleBatch.data_change_id,
        sampleBatch.service_id, sampleBatch.signer_public_key,
        sampleBatch.transactions, .Unknown, sampleBatch.submitted,
        emptyStore.clock, none, []⟩) :=
  claim_C1_add_get_roundtrip emptyStore sampleBatch (by decide) (by decide)
    (by decide) (by decide) (by decide) (by decide) (by decide)

theorem find?_eq_some_of_mem_unique {α : Type} {l : List α} {p : α → Bool}
    {a : α} (ha : a ∈ l) (hpa : p a = true)
    (huniq : ∀ x ∈ l, p x = true → x = a) : l.find? p = some a := by
  induction l with
  | nil => cases ha
  | cons x xs ih =>
    by_cases hx : p x = true
    · rw [List.find?_cons_of_pos _ hx]
      exact congrArg some (huniq x (List.mem_cons_self x xs) hx)
    · rw [List.find?_cons_of_neg _ (by simpa using hx)]
      have ha' : a ∈ xs := by
        rcases List.mem_cons.mp ha with h | h
        · subst h
          exact absurd hpa hx
        · exact h
      exact ih ha'
        (fun y hy hpy => huniq y (List.mem_cons_of_mem x hy) hpy)

/-- Resolving by the raw batch header under the header-uniqueness
invariant (spec §3). -/
theorem resolveBatch_header {st : StoreState} {b : BatchRow}
    (hb : b ∈ st.batches) (hnd : isDcid b.batch_header = false)
    (huniq : ∀ x ∈ st.batches, x.batch_header = b.batch_header →
      x.service_id = b.service_id → x = b) :
    resolveBatch st b.batch_header b.service_id = some b := by
  unfold resolveBatch
  rw [if_neg (by simp [hnd])]
  apply find?_eq_some_of_mem_unique hb (by simp)
  intro x hx hpx
  simp only [decide_eq_true_eq] at hpx
  exact huniq x hx hpx.1 hpx.2

/-- Resolving by the data change id under the secondary-key-uniqueness
invariant (spec §3). -/
theorem resolveBatch_dcid {st : StoreState} {b : BatchRow} {d : String}
    (hb : b ∈ st.batches) (hd : b.data_change_id = some d)
    (hdc : isDcid d = true)
    (huniq : ∀ x ∈ st.batches, x.data_change_id = some d →
      x.service_id = b.service_id → x = b) :
    resolveBatch st d b.service_id = some b := by
  unfold resolveBatch
  rw [if_pos hdc]
  apply find?_eq_some_of_mem_unique hb (by simp [hd])
  intro x hx hpx
  simp only [decide_eq_true_eq] at hpx
  exact huniq x hx hpx.1 hpx.2

theorem conn_update_eq (st : StoreState) (id service_id : String)
    (status : Option BatchStatus) (trs : List TransactionReceipt)
    (se : Option SubmissionError) :
    DieselConnectionBatchTrackingStore.update_batch_status st id service_id
        status trs se =
      Ops.update_batch_status st id service_id
        (status.map (fun s => s.statusString))
        (trs.map (fun t => TransactionReceiptModel.fromReceipt t service_id))
        se := rfl

theorem conn_change_eq (st : StoreState) (id service_id : String)
    (trs : List TransactionReceipt) (dlt : Option String)
    (se : Option SubmissionError) :
    DieselConnectionBatchTrackingStore.change_batch_to_submitted st id
        service_id trs dlt se =
      Ops.change_batch_to_submitted st id service_id
        (trs.map (fun r => TransactionReceiptModel.fromReceipt r service_id))
        (mkBatchStatusModel id service_id dlt)
        (mkSubmissionModel id service_id se) := rfl

/-- C2: for a stored batch carrying a `data_change_id`, every read or
write operation taking a single batch identifier behaves identically when
invoked with the batch header and with the data change id: same results
and same resulting stored state.  Hypotheses: the batch is stored, its
secondary id is well-formed (`dcid:` prefix, spec §3), its header is not
`dcid:`-shaped, and the §3 uniqueness invariants hold for both keys. -/
theorem claim_C2_dual_identity_equivalence
    (st : StoreState) (b : BatchRow) (d : String)
    (status : Option BatchStatus) (trs : List TransactionReceipt)
    (se : Option SubmissionError) (trs2 : List TransactionReceipt)
    (dlt : Option String) (se2 : Option SubmissionError)
    (hb : b ∈ st.batches) (hd : b.data_change_id = some d)
    (hdc : isDcid d = true) (hnd : isDcid b.batch_header = false)
    (huniqH : ∀ x ∈ st.batches, x.batch_header = b.batch_header →
      x.service_id = b.service_id → x = b)
    (huniqD : ∀ x ∈ st.batches, x.data_change_id = some d →
      x.service_id = b.service_id → x = b) :
    DieselConnectionBatchTrackingStore.get_batch st b.batch_header
        b.service_id =
      DieselConnectionBatchTrackingStore.get_batch st d b.service_id ∧
    DieselConnectionBatchTrackingStore.get_batch_status st b.batch_header
        b.service_id =
      DieselConnectionBatchTrackingStore.get_batch_status st d
        b.service_id ∧
    DieselConnectionBatchTrackingStore.update_batch_status st
        b.batch_header b.service_id status trs se =
      DieselConnectionBatchTrackingStore.update_batch_status st d
        b.service_id status trs se ∧
    DieselConnectionBatchTrackingStore.change_batch_to_submitted st
        b.batch_header b.service_id trs2 dlt se2 =
      DieselConnectionBatchTrackingStore.change_batch_to_submitted st d
        b.service_id trs2 dlt se2 := by
  have hresH := resolveBatch_header hb hnd huniqH
  have hresD := resolveBatch_dcid hb hd hdc huniqD
  refine ⟨?_, ?_, ?_, ?_⟩
  · show Ops.get_batch st b.batch_header b.service_id =
      Ops.get_batch st d b.service_id
    unfold Ops.get_batch
    rw [hresH, hresD]
  · show Ops.get_batch_status st b.batch_header b.service_id =
      Ops.get_batch_status st d b.service_id
    unfold Ops.get_batch_status
    rw [hresH, hresD]
  · rw [conn_update_eq, conn_update_eq]
    unfold Ops.update_batch_status
    rw [hresH, hresD]
  · rw [conn_change_eq, conn_change_eq]
    unfold Ops.change_batch_to_submitted
    rw [hresH, hresD]
    cases dlt <;> cases se2 <;> rfl

/-- Witness for C2: the sample batch with data change id
`"dcid:data_change"` (the in-repo `_dcid` test scenarios), exercised with
a pending status update and a submission. -/
theorem claim_C2_witness :
    DieselConnectionBatchTrackingStore.get_batch storeWithBatch "hdr1"
        "TEST" =
      DieselConnectionBatchTrackingStore.get_batch storeWithBatch
        "dcid:data_change" "TEST" ∧
    DieselConnectionBatchTrackingStore.get_batch_status storeWithBatch
        "hdr1" "TEST" =
      DieselConnectionBatchTrackingStore.get_batch_status storeWithBatch
        "dcid:data_change" "TEST" ∧
    DieselConnectionBatchTrackingStore.update_batch_status storeWithBatch
        "hdr1" "TEST" (some .Pending) [sampleReceipt]
        (some ⟨"test", "test message"⟩) =
      DieselConnectionBatchTrackingStore.update_batch_status storeWithBatch
        "dcid:data_change" "TEST" (some .Pending) [sampleReceipt]
        (some ⟨"test", "test message"⟩) ∧
    DieselConnectionBatchTrackingStore.change_batch_to_submitted
        storeWithBatch "hdr1" "TEST" [sampleReceipt] (some "Pending") none =
      DieselConnectionBatchTrackingStore.change_batch_to_submitted
        storeWithBatch "dcid:data_change" "TEST" [sampleReceipt]
        (some "Pending") none :=
  claim_C2_dual_identity_equivalence storeWithBatch
    ⟨"hdr1", some "dcid:data_change", "TEST", "key1", false, 42⟩
    "dcid:data_change" (some .Pending) [sampleReceipt]
    (some ⟨"test", "test message"⟩) [sampleReceipt] (some "Pending") none
    (by decide) rfl (by decide) (by decide) (by decide) (by decide)

theorem runOp_of_error {st : StoreState}
    {op : StoreState → Except BatchTrackingStoreError StoreState}
    {e : BatchTrackingStoreError} (h : op st = .error e) :
    runOp st op = (st, some e) := by
  unfold runOp
  rw [h]

theorem addSingleBatch_ok_shape {st st2 : StoreState} {b : TrackingBatch}
    (h : Ops.addSingleBatch st b = .ok st2) : st2 = insertedState st b := by
  unfold Ops.addSingleBatch at h
  split at h
  · cases h
  · split at h
    · cases h
    · exact (Except.ok.inj h).symm

theorem add_batches_mono {bs : List TrackingBatch} :
    ∀ {st st1 : StoreState}, Ops.add_batches st bs = .ok st1 →
      (∃ l, st1.batches = st.batches ++ l) ∧
      (∃ l, st1.transactions = st.transactions ++ l) ∧
      (∃ l, st1.statuses = st.statuses ++ l) := by
  induction bs with
  | nil =>
    intro st st1 h
    have : st1 = st := (Except.ok.inj h).symm
    subst this
    exact ⟨⟨[], by simp⟩, ⟨[], by simp⟩, ⟨[], by simp⟩⟩
  | cons b rest ih =>
    intro st st1 h
    unfold Ops.add_batches at h
    rcases haddb : Ops.addSingleBatch st b with e | st2
    · rw [haddb] at h
      cases h
    · rw [haddb] at h
      have hsh := addSingleBatch_ok_shape haddb
      subst hsh
      obtain ⟨⟨l1, h1⟩, ⟨l2, h2⟩, ⟨l3, h3⟩⟩ := ih h
      refine ⟨⟨[insertedRow b st.clock] ++ l1, ?_⟩,
        ⟨b.transactions.map (fun t =>
          ⟨b.batch_header, b.service_id, t⟩) ++ l2, ?_⟩,
        ⟨[⟨b.batch_header, b.service_id, "Unknown"⟩] ++ l3, ?_⟩⟩
      · rw [h1]; simp [insertedState]
      · rw [h2]; simp [insertedState]
      · rw [h3]; simp [insertedState]

/-- A batch is fully persisted: its batches row, every one of its
transactions, and its initial `Unknown` status row are stored. -/
def batchFullyPersisted (st1 : StoreState) (b : TrackingBatch) : Prop :=
  (∃ row ∈ st1.batches, row.batch_header = b.batch_header ∧
    row.service_id = b.service_id ∧
    row.data_change_id = b.data_change_id ∧
    row.submitted = b.submitted) ∧
  (∀ t ∈ b.transactions,
    (⟨b.batch_header, b.service_id, t⟩ : TransactionRow) ∈
      st1.transactions) ∧
  (∃ srow ∈ st1.statuses, srow.batch_id = b.batch_header ∧
    srow.service_id = b.service_id ∧ srow.dlt_status = "Unknown")

/-- C6: `add_batches` is all-or-nothing: either the call succeeds and
every batch of the call is fully persisted (batches row, all transactions,
initial status row), or it returns an error and the per-call transaction
rolls the store back to the pre-call state, so no batch of the call is
persisted even partially. -/
theorem claim_C6_add_batches_all_or_nothing (st : StoreState)
    (bs : List TrackingBatch) :
    (∃ st1, DieselConnectionBatchTrackingStore.add_batches st bs =
        .ok st1 ∧ ∀ b ∈ bs, batchFullyPersisted st1 b) ∨
    (∃ e, DieselConnectionBatchTrackingStore.add_batches st bs =
        .error e ∧
      runOp st (fun s =>
        DieselConnectionBatchTrackingStore.add_batches s bs) =
          (st, some e)) := by
  show (∃ st1, Ops.add_batches st bs = .ok st1 ∧
      ∀ b ∈ bs, batchFullyPersisted st1 b) ∨
    (∃ e, Ops.add_batches st bs = .error e ∧
      runOp st (fun s => Ops.add_batches s bs) = (st, some e))
  induction bs generalizing st with
  | nil =>
    left
    exact ⟨st, rfl, fun b hb => absurd hb (List.not_mem_nil b)⟩
  | cons b rest ih =>
    rcases haddb : Ops.addSingleBatch st b with e | st2
    · right
      have herr : Ops.add_batches st (b :: rest) = .error e := by
        unfold Ops.add_batches
        rw [haddb]
      exact ⟨e, herr, runOp_of_error herr⟩
    · have hsh := addSingleBatch_ok_shape haddb
      subst hsh
      rcases ih (insertedState st b) with ⟨st1, hok, hpers⟩ | ⟨e, herr, _⟩
      · left
        refine ⟨st1, ?_, ?_⟩
        · unfold Ops.add_batches
          rw [haddb]
          exact hok
        · intro b' hb'
          rcases List.mem_cons.mp hb' with he | he
          · subst he
          -- b' is the head: its rows are in `insertedState st b'` and
          -- persist through the remaining inserts by monotonicity
            obtain ⟨⟨l1, h1⟩, ⟨l2, h2⟩, ⟨l3, h3⟩⟩ := add_batches_mono hok
            refine ⟨⟨insertedRow b' st.clock, ?_, rfl, rfl, rfl, rfl⟩,
              ?_, ⟨⟨b'.batch_header, b'.service_id, "Unknown"⟩, ?_,
                rfl, rfl, rfl⟩⟩
            · rw [h1]
              apply List.mem_append_left
              exact List.mem_append_right _ (List.mem_singleton_self _)
            · intro t ht
              rw [h2]
              apply List.mem_append_left
              exact List.mem_append_right _ (List.mem_map_of_mem _ ht)
            · rw [h3]
              apply List.mem_append_left
              exact List.mem_append_right _ (List.mem_singleton_self _)
          · exact hpers b' he
      · right
        have herr2 : Ops.add_batches st (b :: rest) = .error e := by
          unfold Ops.add_batches
          rw [haddb]
          exact herr
        exact ⟨e, herr2, runOp_of_error herr2⟩

/-- The batches row rewritten by `change_batch_to_submitted`. -/
def submittedRow (r : BatchRow) : BatchRow :=
  ⟨r.batch_header, r.data_change_id, r.service_id, r.signer_public_key,
   true, r.created_at⟩

theorem change_ok_batches {st st' : StoreState} {id service_id : String}
    {rcpts : List TransactionReceiptModel}
    {bsm : Option NewBatchStatusModel} {sm : NewSubmissionModel}
    {b : BatchRow} (hres : resolveBatch st id service_id = some b)
    (hch : Ops.change_batch_to_submitted st id service_id rcpts bsm sm =
      .ok st') :
    st'.batches = st.batches.map (fun r =>
      if r.batch_header = b.batch_header ∧ r.service_id = b.service_id
      then submittedRow r else r) := by
  unfold Ops.change_batch_to_submitted at hch
  rw [hres] at hch
  have h' := Except.ok.inj hch
  subst h'
  cases bsm <;> rfl

/-- C7: `get_unsubmitted_batches` returns exactly the reconstructions of
the stored batches rows with `submitted = false`; and after a successful
`change_batch_to_submitted` (which sets `submitted = true`), no batch with
the submitted batch's key is in the returned set. -/
theorem claim_C7_unsubmitted_exactly
    (st st' st0 : StoreState) (id service_id : String)
    (trs : List TransactionReceipt) (dlt : Option String)
    (se : Option SubmissionError) (b : BatchRow)
    (hres : resolveBatch st id service_id = some b)
    (hch : DieselConnectionBatchTrackingStore.change_batch_to_submitted st
      id service_id trs dlt se = .ok st') :
    (∃ l0, DieselConnectionBatchTrackingStore.get_unsubmitted_batches st0 =
        .ok ⟨l0⟩ ∧
      ∀ tb, tb ∈ l0 ↔ ∃ row ∈ st0.batches, row.submitted = false ∧
        tb = reconstructBatch st0 row) ∧
    (∃ l, DieselConnectionBatchTrackingStore.get_unsubmitted_batches st' =
        .ok ⟨l⟩ ∧
      ∀ tb ∈ l, ¬(tb.batch_header = b.batch_header ∧
        tb.service_id = b.service_id)) := by
  constructor
  · refine ⟨(st0.batches.filter (fun (r : BatchRow) => !r.submitted)).map
      (reconstructBatch st0), rfl, ?_⟩
    intro tb
    constructor
    · intro htb
      obtain ⟨row, hrow, hre⟩ := List.mem_map.mp htb
      have hf := List.mem_filter.mp hrow
      exact ⟨row, hf.1, by simpa using hf.2, hre.symm⟩
    · rintro ⟨row, hrow, hsub, rfl⟩
      exact List.mem_map_of_mem _
        (List.mem_filter.mpr ⟨hrow, by simp [hsub]⟩)
  · refine ⟨(st'.batches.filter (fun (r : BatchRow) => !r.submitted)).map
      (reconstructBatch st'), rfl, ?_⟩
    rintro tb htb ⟨hhdr, hsid⟩
    obtain ⟨row, hrow, hre⟩ := List.mem_map.mp htb
    have hf := List.mem_filter.mp hrow
    have hbatches : st'.batches = st.batches.map (fun r =>
        if r.batch_header = b.batch_header ∧ r.service_id = b.service_id
        then submittedRow r else r) :=
      change_ok_batches hres (by
        rw [conn_change_eq] at hch
        exact hch)
    have hrow' := hf.1
    rw [hbatches] at hrow'
    obtain ⟨r0, _, hr0⟩ := List.mem_map.mp hrow'
    have hkeyrow : row.batch_header = b.batch_header ∧
        row.service_id = b.service_id := by
      constructor
      · rw [← hhdr, ← hre]
        rfl
      · rw [← hsid, ← hre]
        rfl
    by_cases hk : r0.batch_header = b.batch_header ∧
        r0.service_id = b.service_id
    · rw [if_pos hk] at hr0
      have : row.submitted = true := by
        rw [← hr0]
        rfl
      have hfalse := hf.2
      rw [this] at hfalse
      simp at hfalse
    · rw [if_neg hk] at hr0
      rw [← hr0] at hkeyrow
      exact hk hkeyrow

/-- Store state after marking the sample batch submitted with no status,
receipts, or error. -/
def storeAfterSubmit : StoreState :=
  ⟨[⟨"hdr1", some "dcid:data_change", "TEST", "key1", true, 42⟩],
   [⟨"hdr1", "TEST", sampleTxn⟩],
   [⟨"hdr1", "TEST", "Unknown"⟩], [],
   [⟨"hdr1", "TEST", none, none⟩], 42⟩

/-- Witness for C7: after submitting the sample batch, the unsubmitted set
of the concrete store no longer contains it. -/
theorem claim_C7_witness :
    (∃ l0, DieselConnectionBatchTrackingStore.get_unsubmitted_batches
        storeAfterSubmit = .ok ⟨l0⟩ ∧
      ∀ tb, tb ∈ l0 ↔ ∃ row ∈ storeAfterSubmit.batches,
        row.submitted = false ∧ tb = reconstructBatch storeAfterSubmit
          row) ∧
    (∃ l, DieselConnectionBatchTrackingStore.get_unsubmitted_batches
        storeAfterSubmit = .ok ⟨l⟩ ∧
      ∀ tb ∈ l, ¬(tb.batch_header = "hdr1" ∧ tb.service_id = "TEST")) :=
  claim_C7_unsubmitted_exactly storeWithBatch storeAfterSubmit
    storeAfterSubmit "hdr1" "TEST" [] none none
    ⟨"hdr1", some "dcid:data_change", "TEST", "key1", false, 42⟩
    (by decide) (by decide)

/-- C8: `clean_stale_records` deletes exactly the batches rows with
`created_at` strictly below the cutoff (so a batch with `created_at`
equal to the cutoff is retained, since `¬(cutoff < cutoff)`), deletes
exactly the transaction, status, submission and receipt rows owned by a
stale batch, leaves every other record untouched, and a deleted batch is
no longer returned by `get_batch`. -/
theorem claim_C8_clean_stale_records
    (st : StoreState) (cutoff : Int) (b : BatchRow)
    (hmem : b ∈ st.batches) (hcut : b.created_at < cutoff)
    (hnd : isDcid b.batch_header = false)
    (huniq : ∀ x ∈ st.batches, x.batch_header = b.batch_header →
      x.service_id = b.service_id → x = b) :
    DieselConnectionBatchTrackingStore.clean_stale_records st cutoff =
      .ok (cleanState st cutoff) ∧
    (∀ row : BatchRow, row ∈ (cleanState st cutoff).batches ↔
      row ∈ st.batches ∧ ¬(row.created_at < cutoff)) ∧
    (∀ t : TransactionRow, t ∈ (cleanState st cutoff).transactions ↔
      t ∈ st.transactions ∧
        deadBatchKey st cutoff t.batch_id t.service_id = false) ∧
    (∀ s : StatusRow, s ∈ (cleanState st cutoff).statuses ↔
      s ∈ st.statuses ∧
        deadBatchKey st cutoff s.batch_id s.service_id = false) ∧
    (∀ s : SubmissionRow, s ∈ (cleanState st cutoff).submissions ↔
      s ∈ st.submissions ∧
        deadBatchKey st cutoff s.batch_id s.service_id = false) ∧
    (∀ r : TransactionReceiptModel, r ∈ (cleanState st cutoff).receipts ↔
      r ∈ st.receipts ∧
        st.transactions.any (fun t =>
          deadBatchKey st cutoff t.batch_id t.service_id &&
            decide (t.txn.transaction_id = r.transaction_id ∧
              t.service_id = r.service_id)) = false) ∧
    DieselConnectionBatchTrackingStore.get_batch (cleanState st cutoff)
      b.batch_header b.service_id = .ok none := by
  refine ⟨rfl, ?_, ?_, ?_, ?_, ?_, ?_⟩
  · intro row
    simp [cleanState, List.mem_filter]
  · intro t
    simp [cleanState, List.mem_filter]
  · intro s
    simp [cleanState, List.mem_filter]
  · intro s
    simp [cleanState, List.mem_filter]
  · intro r
    simp [cleanState, List.mem_filter]
  · have hres : resolveBatch (cleanState st cutoff) b.batch_header
        b.service_id = none := by
      unfold resolveBatch
      rw [if_neg (by simp [hnd]), List.find?_eq_none]
      intro x hx
      simp only [decide_eq_true_eq]
      rintro ⟨hxh, hxs⟩
      have hx' : x ∈ st.batches.filter
          (fun b0 => !decide (b0.created_at < cutoff)) := hx
      have hmemx : x ∈ st.batches ∧
          (!decide (x.created_at < cutoff)) = true :=
        List.mem_filter.mp hx'
      have hxb : x = b := huniq x hmemx.1 hxh hxs
      subst hxb
      have := hmemx.2
      simp [hcut] at this
    show Ops.get_batch (cleanState st cutoff) b.batch_header
      b.service_id = .ok none
    unfold Ops.get_batch
    rw [hres]
    rfl

/-- Witness for C8: cleaning the concrete store at cutoff 43 removes the
sample batch created at clock 42. -/
theorem claim_C8_witness :
    DieselConnectionBatchTrackingStore.clean_stale_records storeWithBatch
      43 = .ok (cleanState storeWithBatch 43) ∧
    (∀ row : BatchRow, row ∈ (cleanState storeWithBatch 43).batches ↔
      row ∈ storeWithBatch.batches ∧ ¬(row.created_at < 43)) ∧
    (∀ t : TransactionRow, t ∈ (cleanState storeWithBatch 43).transactions ↔
      t ∈ storeWithBatch.transactions ∧
        deadBatchKey storeWithBatch 43 t.batch_id t.service_id = false) ∧
    (∀ s : StatusRow, s ∈ (cleanState storeWithBatch 43).statuses ↔
      s ∈ storeWithBatch.statuses ∧
        deadBatchKey storeWithBatch 43 s.batch_id s.service_id = false) ∧
    (∀ s : SubmissionRow, s ∈ (cleanState storeWithBatch 43).submissions ↔
      s ∈ storeWithBatch.submissions ∧
        deadBatchKey storeWithBatch 43 s.batch_id s.service_id = false) ∧
    (∀ r : TransactionReceiptModel,
      r ∈ (cleanState storeWithBatch 43).receipts ↔
      r ∈ storeWithBatch.receipts ∧
        storeWithBatch.transactions.any (fun t =>
          deadBatchKey storeWithBatch 43 t.batch_id t.service_id &&
            decide (t.txn.transaction_id = r.transaction_id ∧
              t.service_id = r.service_id)) = false) ∧
    DieselConnectionBatchTrackingStore.get_batch (cleanState storeWithBatch
      43) "hdr1" "TEST" = .ok none :=
  claim_C8_clean_stale_records storeWithBatch 43
    ⟨"hdr1", some "dcid:data_change", "TEST", "key1", false, 42⟩
    (by decide) (by decide) (by decide) (by decide)

theorem find?_upsertBy_self {α κ : Type} [DecidableEq κ] (k : α → κ)
    (l : List α) (u : α) (p : α → Bool)
    (hp : ∀ s, p s = true ↔ k s = k u) :
    (upsertBy k l u).find? p = some u := by
  unfold upsertBy
  split
  case isTrue hany =>
    rw [List.find?_map]
    have hpf : (p ∘ repBy k u) = p := by
      funext s
      show p (repBy k u s) = p s
      unfold repBy
      split
      case isTrue h =>
        have h1 : p u = true := (hp u).mpr rfl
        have h2 : p s = true := (hp s).mpr h
        rw [h1, h2]
      case isFalse h => rfl
    rw [hpf]
    rw [List.any_eq_true] at hany
    obtain ⟨x, hx, hkx⟩ := hany
    rw [decide_eq_true_eq] at hkx
    obtain ⟨y, hy, hpy, hmy⟩ : ∃ y, l.find? p = some y ∧ p y = true ∧
        y ∈ l := by
      have hsome : (l.find? p).isSome := by
        rw [List.find?_isSome]
        exact ⟨x, hx, (hp x).mpr hkx⟩
      obtain ⟨y, hy⟩ := Option.isSome_iff_exists.mp hsome
      exact ⟨y, hy, List.find?_some hy, List.mem_of_find?_eq_some hy⟩
    rw [hy]
    have : repBy k u y = u := by
      unfold repBy
      rw [if_pos ((hp y).mp hpy)]
    rw [Option.map_some', this]
  case isFalse hany =>
    rw [List.find?_append]
    have hnone : l.find? p = none := by
      rw [List.find?_eq_none]
      intro x hx hpx
      exact hany (List.any_eq_true.mpr ⟨x, hx, by
        simp [(hp x).mp hpx]⟩)
    rw [hnone]
    have hpu : p u = true := (hp u).mpr rfl
    simp [List.find?, hpu]

theorem resolveBatch_service {st : StoreState} {id service_id : String}
    {b : BatchRow} (h : resolveBatch st id service_id = some b) :
    b.service_id = service_id := by
  unfold resolveBatch at h
  split at h
  · have := List.find?_some h
    rw [decide_eq_true_eq] at this
    exact this.2
  · have := List.find?_some h
    rw [decide_eq_true_eq] at this
    exact this.2

/-- C9: `list_batches_by_status` returns exactly the stored batches,
across all service ids, whose stored status string equals the queried
status's tag; the comparison is on the tag only (`Valid`/`Invalid`
payloads are ignored); and once a batch's status is rewritten to
`Unknown`, it is no longer returned for `Pending`. -/
theorem claim_C9_list_batches_by_status
    (st st' st0 : StoreState) (id service_id : String)
    (trs : List TransactionReceipt) (se : Option SubmissionError)
    (stat : BatchStatus) (v1 v2 : List ValidTransaction)
    (i1 i2 : List InvalidTransaction) (b : BatchRow)
    (hres : resolveBatch st id service_id = some b)
    (hupd : DieselConnectionBatchTrackingStore.update_batch_status st id
      service_id (some .Unknown) trs se = .ok st') :
    (∃ l, DieselConnectionBatchTrackingStore.list_batches_by_status st0
        stat = .ok ⟨l⟩ ∧
      ∀ tb, tb ∈ l ↔ ∃ row ∈ st0.batches,
        batchStatusString st0 row = stat.statusString ∧
        tb = reconstructBatch st0 row) ∧
    DieselConnectionBatchTrackingStore.list_batches_by_status st0
        (.Valid v1) =
      DieselConnectionBatchTrackingStore.list_batches_by_status st0
        (.Valid v2) ∧
    DieselConnectionBatchTrackingStore.list_batches_by_status st0
        (.Invalid i1) =
      DieselConnectionBatchTrackingStore.list_batches_by_status st0
        (.Invalid i2) ∧
    (∃ l, DieselConnectionBatchTrackingStore.list_batches_by_status st'
        .Pending = .ok ⟨l⟩ ∧
      ∀ tb ∈ l, ¬(tb.batch_header = b.batch_header ∧
        tb.service_id = b.service_id)) := by
  refine ⟨?_, rfl, rfl, ?_⟩
  · refine ⟨(st0.batches.filter (fun (r : BatchRow) =>
      decide (batchStatusString st0 r = stat.statusString))).map
        (reconstructBatch st0), rfl, ?_⟩
    intro tb
    constructor
    · intro htb
      obtain ⟨row, hrow, hre⟩ := List.mem_map.mp htb
      have hf := List.mem_filter.mp hrow
      exact ⟨row, hf.1, by simpa using hf.2, hre.symm⟩
    · rintro ⟨row, hrow, hstat, rfl⟩
      exact List.mem_map_of_mem _
        (List.mem_filter.mpr ⟨hrow, by simp [hstat]⟩)
  · have hst' : st' = updatedState st service_id b.batch_header
        (some "Unknown") (trs.map (fun t =>
          TransactionReceiptModel.fromReceipt t service_id)) se := by
      rw [conn_update_eq] at hupd
      rw [update_batch_status_ok _ _ _ hres] at hupd
      exact (Except.ok.inj hupd).symm
    have hsvc := resolveBatch_service hres
    refine ⟨(st'.batches.filter (fun (r : BatchRow) =>
      decide (batchStatusString st' r =
        BatchStatus.Pending.statusString))).map
        (reconstructBatch st'), rfl, ?_⟩
    rintro tb htb ⟨hhdr, hsid⟩
    obtain ⟨row, hrow, hre⟩ := List.mem_map.mp htb
    have hf := List.mem_filter.mp hrow
    have hkeyrow : row.batch_header = b.batch_header ∧
        row.service_id = b.service_id := by
      constructor
      · rw [← hhdr, ← hre]
        rfl
      · rw [← hsid, ← hre]
        rfl
    have hunknown : batchStatusString st' row = "Unknown" := by
      have hstatuses : st'.statuses = upsertBy statusKey st.statuses
          ⟨b.batch_header, service_id, "Unknown"⟩ := by
        rw [hst']
        rfl
      unfold batchStatusString
      rw [hstatuses, find?_upsertBy_self statusKey st.statuses _ _ ?_]
      · rfl
      · intro s
        simp only [decide_eq_true_eq, statusKey]
        constructor
        · rintro ⟨h1, h2⟩
          rw [h1, h2, hkeyrow.1, hkeyrow.2, hsvc]
        · intro hpair
          have h1 := congrArg Prod.fst hpair
          have h2 := congrArg Prod.snd hpair
          simp at h1 h2
          rw [h1, h2, hkeyrow.1, hkeyrow.2, hsvc]
          exact ⟨rfl, rfl⟩
    have hpend := hf.2
    rw [decide_eq_true_eq] at hpend
    rw [hunknown] at hpend
    exact absurd hpend (by decide)

/-- Store state after rewriting the sample batch's status back to
`Unknown`. -/
def storeAfterUnknown : StoreState :=
  ⟨[⟨"hdr1", some "dcid:data_change", "TEST", "key1", false, 42⟩],
   [⟨"hdr1", "TEST", sampleTxn⟩],
   [⟨"hdr1", "TEST", "Unknown"⟩],
   [⟨"tx1", false, some "test", some [5, 6, 7, 8], "sr", "TEST"⟩],
   [⟨"hdr1", "TEST", some "test", some "test message"⟩], 42⟩

/-- Witness for C9 at the in-repo `test_list_pending_batches` scenario:
the sample batch is `Pending`, its status is rewritten to `Unknown`, and
it disappears from the `Pending` listing. -/
theorem claim_C9_witness :
    (∃ l, DieselConnectionBatchTrackingStore.list_batches_by_status
        storeAfterUpdate BatchStatus.Pending = .ok ⟨l⟩ ∧
      ∀ tb, tb ∈ l ↔ ∃ row ∈ storeAfterUpdate.batches,
        batchStatusString storeAfterUpdate row = "Pending" ∧
        tb = reconstructBatch storeAfterUpdate row) ∧
    DieselConnectionBatchTrackingStore.list_batches_by_status
        storeAfterUpdate (.Valid []) =
      DieselConnectionBatchTrackingStore.list_batches_by_status
        storeAfterUpdate (.Valid [⟨"tx1"⟩]) ∧
    DieselConnectionBatchTrackingStore.list_batches_by_status
        storeAfterUpdate (.Invalid []) =
      DieselConnectionBatchTrackingStore.list_batches_by_status
        storeAfterUpdate (.Invalid [⟨"tx1", "test", [5, 6, 7, 8]⟩]) ∧
    (∃ l, DieselConnectionBatchTrackingStore.list_batches_by_status
        storeAfterUnknown BatchStatus.Pending = .ok ⟨l⟩ ∧
      ∀ tb ∈ l, ¬(tb.batch_header = "hdr1" ∧ tb.service_id = "TEST")) :=
  claim_C9_list_batches_by_status storeAfterUpdate storeAfterUnknown
    storeAfterUpdate "hdr1" "TEST" [] none .Pending [] [⟨"tx1"⟩] []
    [⟨"tx1", "test", [5, 6, 7, 8]⟩]
    ⟨"hdr1", some "dcid:data_change", "TEST", "key1", false, 42⟩
    (by decide) (by decide)
